import Mathlib

/-!
# Verification of the To-Do application's service and storage layers

Shallow embedding of the TypeScript source:

* `src/models` (`Task`, `TaskList`, `StorageData` and the DTOs) become Lean
  structures.  JavaScript `Date` values are modelled as `Int` (milliseconds
  since the epoch, which is exactly what `Date` stores and what survives the
  `JSON.stringify` / `new Date(string)` round trip).  `uuidv4()` and
  `new Date()` occurrences become explicit parameters (`newId`, `now`).
* `src/utils/fileStorage.ts` (`readData` / `writeData`) is modelled over an
  abstract file-system state holding the primary and backup file contents.
* the service functions of `src/services/listService.ts` and
  `src/services/taskService.ts` become pure functions from a `StorageData`
  (the document `readData` yields) to a result, the successor document and a
  flag recording whether `writeData` was invoked.

String operations mirror the JavaScript ones on the underlying character
list: `toLowerCase` (ASCII case mapping), `trim`, `includes` (substring).
-/

namespace Todo

/-! ## JavaScript string primitives -/

/-- `s.toLowerCase()`: character-wise lower casing (ASCII range). -/
def jsToLower (s : String) : String := ⟨s.data.map Char.toLower⟩

/-- Drop leading whitespace characters from a character list. -/
def dropLeadingWS : List Char → List Char
  | [] => []
  | c :: cs => if c.isWhitespace then dropLeadingWS cs else c :: cs

/-- `s.trim()`: remove whitespace from both ends. -/
def jsTrim (s : String) : String :=
  ⟨(dropLeadingWS ((dropLeadingWS s.data.reverse)).reverse)⟩

/-- `sub` occurs at the start of `s` (character lists). -/
def startsWithCL : List Char → List Char → Bool
  | [], _ => true
  | _ :: _, [] => false
  | a :: as, b :: bs => a == b && startsWithCL as bs

/-- `sub` occurs somewhere inside `s` (character lists). -/
def substrCL (sub : List Char) : List Char → Bool
  | [] => startsWithCL sub []
  | c :: tail => startsWithCL sub (c :: tail) || substrCL sub tail

/-- `s.includes(sub)`: substring containment. -/
def jsIncludes (s sub : String) : Bool := substrCL sub.data s.data

/-- JavaScript truthiness of an optional string: `undefined` and `""` are
falsy, every other string is truthy. -/
def truthyString : Option String → Bool
  | some s => !(s == "")
  | none => false

/-! ## Data model (`src/models/Task.ts`, `src/models/TaskList.ts`) -/

/-- `Task` interface. `time` is the optional field `time?: string`. -/
structure Task where
  id : String
  title : String
  time : Option String
  completed : Bool
  listId : String
  createdAt : Int
  updatedAt : Int
  deriving Repr, DecidableEq

/-- `TaskList` interface. -/
structure TaskList where
  id : String
  name : String
  createdAt : Int
  updatedAt : Int
  deriving Repr, DecidableEq

/-- The `metadata` record of `StorageData`. -/
structure Metadata where
  version : String
  lastUpdated : Int
  deriving Repr, DecidableEq

/-- `StorageData`: the whole persisted document. -/
structure StorageData where
  taskLists : List TaskList
  tasks : List Task
  metadata : Metadata
  deriving Repr, DecidableEq

/-- `CreateTaskListDTO`. -/
structure CreateTaskListDTO where
  name : String
  deriving Repr, DecidableEq

/-- `UpdateTaskListDTO` (`name?: string`). -/
structure UpdateTaskListDTO where
  name : Option String
  deriving Repr, DecidableEq

/-- `CreateTaskDTO`. -/
structure CreateTaskDTO where
  title : String
  time : Option String
  listId : String
  deriving Repr, DecidableEq

/-- `UpdateTaskDTO` (all fields optional). -/
structure UpdateTaskDTO where
  title : Option String
  time : Option String
  completed : Option Bool
  deriving Repr, DecidableEq

/-- The `AppError`s the service layer throws on its business-logic paths:
`409` duplicate-name and `404` not-found. -/
inductive AppError where
  | duplicateName
  | notFound
  deriving Repr, DecidableEq

/-- Outcome of one service operation: the value the function returns, the
document after the operation, and whether `writeData` was called. -/
structure OpOut (α : Type) where
  result : α
  data : StorageData
  saved : Bool

/-! ## List service (`src/services/listService.ts`) -/

/-- `createTaskList` (listService): rejects with 409 when some existing
list's name matches the *given* (untrimmed) name case-insensitively,
otherwise appends a new list whose stored name is the trimmed one. -/
def createTaskList (newId : String) (now : Int) (createData : CreateTaskListDTO)
    (data : StorageData) : Except AppError (OpOut TaskList) :=
  match data.taskLists.find? (fun list => jsToLower list.name == jsToLower createData.name) with
  | some _ => .error .duplicateName
  | none =>
    let newTaskList : TaskList :=
      { id := newId, name := jsTrim createData.name, createdAt := now, updatedAt := now }
    .ok { result := newTaskList
          data := { data with taskLists := data.taskLists ++ [newTaskList] }
          saved := true }

/-- `updateTaskList` (listService): `null` when the id is unknown; when
`updateData.name` is truthy it is checked (untrimmed) against every *other*
list and then stored trimmed; a falsy `name` (absent or `""`) skips both the
check and the assignment; `updatedAt` is always bumped. -/
def updateTaskList (now : Int) (id : String) (updateData : UpdateTaskListDTO)
    (data : StorageData) : Except AppError (OpOut (Option TaskList)) :=
  match data.taskLists.findIdx? (fun list => list.id == id) with
  | none => .ok { result := none, data := data, saved := false }
  | some taskListIndex =>
    match data.taskLists[taskListIndex]? with
    | none => .ok { result := none, data := data, saved := false }
    | some currentList =>
      if truthyString updateData.name then
        let newName := updateData.name.getD ""
        if data.taskLists.any (fun list =>
            !(list.id == id) && jsToLower list.name == jsToLower newName) then
          .error .duplicateName
        else
          let updatedTaskList : TaskList :=
            { currentList with name := jsTrim newName, updatedAt := now }
          .ok { result := some updatedTaskList
                data := { data with
                  taskLists := data.taskLists.set taskListIndex updatedTaskList }
                saved := true }
      else
        let updatedTaskList : TaskList := { currentList with updatedAt := now }
        .ok { result := some updatedTaskList
              data := { data with
                taskLists := data.taskLists.set taskListIndex updatedTaskList }
              saved := true }

/-- `deleteTaskList` (listService): `false` and no save when the id is
unknown; otherwise removes the list, removes every task whose `listId`
equals the deleted id, and saves once. -/
def deleteTaskList (id : String) (data : StorageData) : OpOut Bool :=
  match data.taskLists.findIdx? (fun list => list.id == id) with
  | none => { result := false, data := data, saved := false }
  | some taskListIndex =>
    { result := true
      data := { data with
        taskLists := data.taskLists.eraseIdx taskListIndex
        tasks := data.tasks.filter (fun task => !(task.listId == id)) }
      saved := true }

/-- `taskListExists` (listService): `getTaskListById` finds by id and
existence is the non-`null` check. -/
def taskListExists (id : String) (data : StorageData) : Bool :=
  data.taskLists.any (fun list => list.id == id)

/-- The statistics record both stats endpoints return. `completionRate` is a
JavaScript number; the computations involved here stay inside ℚ. -/
structure Stats where
  totalTasks : Nat
  completedTasks : Nat
  pendingTasks : Nat
  completionRate : ℚ
  deriving Repr, DecidableEq

/-- `Math.round` on the non-negative arguments occurring here: round half
up. -/
def jsRound (x : ℚ) : ℚ := ⌊x + 1 / 2⌋

/-- `getTaskListStats` (listService): `null` when the list is unknown,
otherwise counts and `Math.round(rate * 100) / 100`. -/
def getTaskListStats (id : String) (data : StorageData) : Option Stats :=
  match data.taskLists.find? (fun list => list.id == id) with
  | none => none
  | some _ =>
    let listTasks := data.tasks.filter (fun task => task.listId == id)
    let completedTasks := (listTasks.filter (fun task => task.completed)).length
    let totalTasks := listTasks.length
    let pendingTasks := totalTasks - completedTasks
    let completionRate : ℚ :=
      if totalTasks > 0 then ((completedTasks : ℚ) / (totalTasks : ℚ)) * 100 else 0
    some { totalTasks := totalTasks
           completedTasks := completedTasks
           pendingTasks := pendingTasks
           completionRate := jsRound (completionRate * 100) / 100 }

/-! ## Task service (`src/services/taskService.ts`) -/

/-- `createTask` (taskService): 404 when `createData.listId` names no
existing list; otherwise appends the new task (title and time trimmed,
`completed := false`) and saves. -/
def createTask (newId : String) (now : Int) (createData : CreateTaskDTO)
    (data : StorageData) : Except AppError (OpOut Task) :=
  if !taskListExists createData.listId data then
    .error .notFound
  else
    let newTask : Task :=
      { id := newId
        title := jsTrim createData.title
        time := createData.time.map jsTrim
        completed := false
        listId := createData.listId
        createdAt := now
        updatedAt := now }
    .ok { result := newTask
          data := { data with tasks := data.tasks ++ [newTask] }
          saved := true }

/-- `updateTask` (taskService): `null` (and no save) when the id is unknown;
otherwise only the fields present in the DTO are applied (strings trimmed),
`updatedAt` is bumped and the task is written back in place. -/
def updateTask (now : Int) (id : String) (updateData : UpdateTaskDTO)
    (data : StorageData) : OpOut (Option Task) :=
  match data.tasks.findIdx? (fun task => task.id == id) with
  | none => { result := none, data := data, saved := false }
  | some taskIndex =>
    match data.tasks[taskIndex]? with
    | none => { result := none, data := data, saved := false }
    | some currentTask =>
      let updatedTask : Task :=
        { currentTask with
          title := match updateData.title with
            | some t => jsTrim t
            | none => currentTask.title
          time := match updateData.time with
            | some t => some (jsTrim t)
            | none => currentTask.time
          completed := updateData.completed.getD currentTask.completed
          updatedAt := now }
      { result := some updatedTask
        data := { data with tasks := data.tasks.set taskIndex updatedTask }
        saved := true }

/-- `toggleTaskCompletion` (taskService). -/
def toggleTaskCompletion (now : Int) (id : String) (data : StorageData) :
    OpOut (Option Task) :=
  match data.tasks.findIdx? (fun task => task.id == id) with
  | none => { result := none, data := data, saved := false }
  | some taskIndex =>
    match data.tasks[taskIndex]? with
    | none => { result := none, data := data, saved := false }
    | some currentTask =>
      let updatedTask : Task :=
        { currentTask with completed := !currentTask.completed, updatedAt := now }
      { result := some updatedTask
        data := { data with tasks := data.tasks.set taskIndex updatedTask }
        saved := true }

/-- `deleteTask` (taskService): `false` and no save when the id is unknown;
otherwise splices the task out and saves. -/
def deleteTask (id : String) (data : StorageData) : OpOut Bool :=
  match data.tasks.findIdx? (fun task => task.id == id) with
  | none => { result := false, data := data, saved := false }
  | some taskIndex =>
    { result := true
      data := { data with tasks := data.tasks.eraseIdx taskIndex }
      saved := true }

/-- The search comparator of `searchTasks`, phrased as a `≤` relation:
`taskSearchLe q a b` holds exactly when the JavaScript comparator returns a
value `≤ 0` on `(a, b)` (so `a` may be placed before `b`): exact
case-insensitive title matches first, otherwise newer `createdAt` first. -/
def taskSearchLe (searchQuery : String) (a b : Task) : Prop :=
  let aTitle := jsToLower a.title
  let bTitle := jsToLower b.title
  if aTitle == searchQuery && !(bTitle == searchQuery) then True
  else if bTitle == searchQuery && !(aTitle == searchQuery) then False
  else b.createdAt ≤ a.createdAt

instance (searchQuery : String) : DecidableRel (taskSearchLe searchQuery) := by
  intro a b
  unfold taskSearchLe
  exact inferInstance

instance (searchQuery : String) : IsTotal Task (taskSearchLe searchQuery) := by
  constructor
  intro a b
  unfold taskSearchLe
  by_cases ha : jsToLower a.title == searchQuery <;>
    by_cases hb : jsToLower b.title == searchQuery <;>
      simp [ha, hb] <;> omega

instance (searchQuery : String) : IsTrans Task (taskSearchLe searchQuery) := by
  constructor
  intro a b c
  unfold taskSearchLe
  by_cases ha : jsToLower a.title == searchQuery <;>
    by_cases hb : jsToLower b.title == searchQuery <;>
      by_cases hc : jsToLower c.title == searchQuery <;>
        simp [ha, hb, hc] <;> omega

/-- `searchTasks` (taskService): scope to `listId`'s tasks when that
argument is truthy (404 when the list is unknown), filter by
case-insensitive substring match of the trimmed lower-cased query against
the title, and sort: exact matches first, then newest first.  The
JavaScript `Array.prototype.sort` (stable, comparator-consistent) is
modelled by the stable `List.insertionSort`. -/
def searchTasks (query : String) (listId : Option String) (data : StorageData) :
    Except AppError (List Task) :=
  if truthyString listId then
    let lid := listId.getD ""
    if !taskListExists lid data then
      .error .notFound
    else
      let tasks := data.tasks.filter (fun task => task.listId == lid)
      let searchQuery := jsTrim (jsToLower query)
      let matchingTasks := tasks.filter (fun task => jsIncludes (jsToLower task.title) searchQuery)
      .ok (matchingTasks.insertionSort (taskSearchLe searchQuery))
  else
    let searchQuery := jsTrim (jsToLower query)
    let matchingTasks :=
      data.tasks.filter (fun task => jsIncludes (jsToLower task.title) searchQuery)
    .ok (matchingTasks.insertionSort (taskSearchLe searchQuery))

/-- `getTaskStats` (taskService): like `getTaskListStats` but over all tasks
when `listId` is not given (404 when a given `listId` is unknown). -/
def getTaskStats (listId : Option String) (data : StorageData) :
    Except AppError Stats :=
  if truthyString listId then
    let lid := listId.getD ""
    if !taskListExists lid data then
      .error .notFound
    else
      let tasks := data.tasks.filter (fun task => task.listId == lid)
      let totalTasks := tasks.length
      let completedTasks := (tasks.filter (fun task => task.completed)).length
      let pendingTasks := totalTasks - completedTasks
      let completionRate : ℚ :=
        if totalTasks > 0 then ((completedTasks : ℚ) / (totalTasks : ℚ)) * 100 else 0
      .ok { totalTasks := totalTasks
            completedTasks := completedTasks
            pendingTasks := pendingTasks
            completionRate := jsRound (completionRate * 100) / 100 }
  else
    let tasks := data.tasks
    let totalTasks := tasks.length
    let completedTasks := (tasks.filter (fun task => task.completed)).length
    let pendingTasks := totalTasks - completedTasks
    let completionRate : ℚ :=
      if totalTasks > 0 then ((completedTasks : ℚ) / (totalTasks : ℚ)) * 100 else 0
    .ok { totalTasks := totalTasks
          completedTasks := completedTasks
          pendingTasks := pendingTasks
          completionRate := jsRound (completionRate * 100) / 100 }

/-! ## File storage (`src/utils/fileStorage.ts`)

A file on disk is `absent`, present but unreadable/unparseable, or present
with a well-formed JSON document.  Serialisation is modelled at the level of
parsed documents: `JSON.stringify` followed by `JSON.parse` plus the
`new Date(isoString)` revival restores every field (`Int` millisecond
timestamps round-trip exactly through the ISO string). -/

/-- State of one storage file. -/
inductive FileState where
  | absent
  | unparseable
  | parsed (data : StorageData)
  deriving Repr, DecidableEq

/-- The primary (`storage.json`) and backup (`storage.backup.json`) files. -/
structure FileSystem where
  primary : FileState
  backup : FileState
  deriving Repr, DecidableEq

/-- `createInitialData`. -/
def createInitialData (now : Int) : StorageData :=
  { taskLists := []
    tasks := []
    metadata := { version := "1.0.0", lastUpdated := now } }

/-- `writeData`: stamps `metadata.lastUpdated`, copies an existing primary
file (whatever its content) to the backup path, then atomically replaces the
primary with the serialised document. -/
def writeData (now : Int) (data : StorageData) (fs : FileSystem) : FileSystem :=
  let stamped := { data with metadata := { data.metadata with lastUpdated := now } }
  { primary := .parsed stamped
    backup := match fs.primary with
      | .absent => fs.backup
      | p => p }

/-- `readData`: synthesises, persists and returns the initial document when
the primary file is absent; returns the parsed primary when it parses; falls
back to a parsed backup, and finally to a fresh initial document.  Total: no
read error escapes. -/
def readData (now : Int) (fs : FileSystem) : StorageData × FileSystem :=
  match fs.primary with
  | .absent => (createInitialData now, writeData now (createInitialData now) fs)
  | .parsed data => (data, fs)
  | .unparseable =>
    match fs.backup with
    | .parsed backupData => (backupData, fs)
    | _ => (createInitialData now, fs)

/-! ## Repository operations as a transition system -/

/-- One service-layer operation together with the data (`uuidv4()` results,
`new Date()` instants, DTOs) it consumes. -/
inductive Op where
  | createListOp (newId : String) (now : Int) (createData : CreateTaskListDTO)
  | updateListOp (now : Int) (id : String) (updateData : UpdateTaskListDTO)
  | deleteListOp (id : String)
  | createTaskOp (newId : String) (now : Int) (createData : CreateTaskDTO)
  | updateTaskOp (now : Int) (id : String) (updateData : UpdateTaskDTO)
  | toggleTaskOp (now : Int) (id : String)
  | deleteTaskOp (id : String)
  deriving Repr, DecidableEq

/-- The document after running one operation (an erroring operation leaves
the stored document unchanged: the error is thrown before any write). -/
def applyOp (data : StorageData) (op : Op) : StorageData :=
  match op with
  | .createListOp newId now c =>
    match createTaskList newId now c data with
    | .ok out => out.data
    | .error _ => data
  | .updateListOp now id u =>
    match updateTaskList now id u data with
    | .ok out => out.data
    | .error _ => data
  | .deleteListOp id => (deleteTaskList id data).data
  | .createTaskOp newId now c =>
    match createTask newId now c data with
    | .ok out => out.data
    | .error _ => data
  | .updateTaskOp now id u => (updateTask now id u data).data
  | .toggleTaskOp now id => (toggleTaskCompletion now id data).data
  | .deleteTaskOp id => (deleteTask id data).data

/-! ## Invariants and operation-sequence predicates -/

/-- No two stored lists have names equal up to case. -/
def uniqueNamesCI (data : StorageData) : Prop :=
  (data.taskLists.map (fun list => jsToLower list.name)).Pairwise (· ≠ ·)

/-- All stored list ids are distinct (what `uuidv4()` is trusted for). -/
def uniqueListIds (data : StorageData) : Prop :=
  (data.taskLists.map TaskList.id).Pairwise (· ≠ ·)

/-- Referential integrity: every task points at some stored list. -/
def refIntegrity (data : StorageData) : Prop :=
  ∀ task ∈ data.tasks, task.listId ∈ data.taskLists.map TaskList.id

/-- Every list name supplied by the operation is already trimmed. -/
def opNamesTrimmed : Op → Bool
  | .createListOp _ _ c => jsTrim c.name == c.name
  | .updateListOp _ _ u =>
    match u.name with
    | some s => jsTrim s == s
    | none => true
  | _ => true

/-- The id an operation would generate is fresh for the current document. -/
def opFreshFor : Op → StorageData → Bool
  | .createListOp newId _ _, data => !(data.taskLists.map TaskList.id).contains newId
  | _, _ => true

/-- Along the run of `ops` from `data`, every generated list id is fresh
when it is consumed. -/
def goodSeq : List Op → StorageData → Bool
  | [], _ => true
  | op :: ops, data => opFreshFor op data && goodSeq ops (applyOp data op)

/-! ## Concrete fixtures used by witnesses and counterexamples -/

/-- A sample metadata record. -/
def sampleMeta : Metadata := { version := "1.0.0", lastUpdated := 0 }

/-- A sample stored list. -/
def sampleList (id name : String) : TaskList :=
  { id := id, name := name, createdAt := 0, updatedAt := 0 }

/-- A sample stored task. -/
def sampleTask (id title listId : String) (completed : Bool) (createdAt : Int) : Task :=
  { id := id, title := title, time := none, completed := completed
    listId := listId, createdAt := createdAt, updatedAt := createdAt }

/-! ## Theorems -/

/-- C6: `readData` never propagates a read error: absent primary →
synthesise, persist and return the empty version-"1.0.0" document; corrupt
primary with parseable backup → the backup document; both unusable → a
fresh empty document. -/
theorem c6_read_never_fails (now : Int) (fs : FileSystem) :
    ((createInitialData now).taskLists = [] ∧ (createInitialData now).tasks = []
      ∧ (createInitialData now).metadata.version = "1.0.0")
    ∧ (fs.primary = .absent →
        readData now fs = (createInitialData now, writeData now (createInitialData now) fs)
        ∧ (readData now fs).2.primary = .parsed (createInitialData now))
    ∧ (∀ d, fs.primary = .parsed d → readData now fs = (d, fs))
    ∧ (fs.primary = .unparseable → ∀ b, fs.backup = .parsed b →
        readData now fs = (b, fs))
    ∧ (fs.primary = .unparseable → (∀ b, fs.backup ≠ .parsed b) →
        readData now fs = (createInitialData now, fs)) := by
  refine ⟨⟨rfl, rfl, rfl⟩, ?_, ?_, ?_, ?_⟩
  · intro h
    simp [readData, writeData, createInitialData, h]
  · intro d h
    simp [readData, h]
  · intro h b hb
    simp [readData, h, hb]
  · intro h hb
    cases hbs : fs.backup with
    | absent => simp [readData, h, hbs]
    | unparseable => simp [readData, h, hbs]
    | parsed b => exact absurd hbs (hb b)

/-- Closed instance of `c6_read_never_fails`: both files corrupt ⇒ fresh
empty document, no error. -/
theorem c6_read_never_fails_witness :
    readData 0 { primary := .unparseable, backup := .unparseable }
      = (createInitialData 0, { primary := .unparseable, backup := .unparseable }) :=
  (c6_read_never_fails 0 { primary := .unparseable, backup := .unparseable }).2.2.2.2
    rfl (fun _ h => FileState.noConfusion h)

/-- C7: storage round-trip: writing a document and reading it back restores
all list and task fields (timestamps are `Int` milliseconds, which survive
the ISO-string serialisation exactly). -/
theorem c7_storage_round_trip (d : StorageData) (now nowR : Int) (fs : FileSystem) :
    (readData nowR (writeData now d fs)).1.taskLists = d.taskLists
    ∧ (readData nowR (writeData now d fs)).1.tasks = d.tasks := by
  simp [readData, writeData]

/-- C9: deleting an unknown id returns `false` without saving, for both
repositories; an existing id is removed, saved and `true` returned. -/
theorem c9_delete_unknown_silent (id : String) (data : StorageData) :
    ((∀ list ∈ data.taskLists, list.id ≠ id) →
       deleteTaskList id data = { result := false, data := data, saved := false })
    ∧ ((∀ task ∈ data.tasks, task.id ≠ id) →
       deleteTask id data = { result := false, data := data, saved := false })
    ∧ ((∃ list ∈ data.taskLists, list.id = id) →
       (deleteTaskList id data).result = true ∧ (deleteTaskList id data).saved = true
       ∧ (deleteTaskList id data).data.taskLists.length + 1 = data.taskLists.length)
    ∧ ((∃ task ∈ data.tasks, task.id = id) →
       (deleteTask id data).result = true ∧ (deleteTask id data).saved = true
       ∧ (deleteTask id data).data.tasks.length + 1 = data.tasks.length) := by
  refine ⟨?_, ?_, ?_, ?_⟩
  · intro h
    have hnone : data.taskLists.findIdx? (fun list => list.id == id) = none := by
      simp only [List.findIdx?_eq_none_iff]
      intro x hx
      simpa using h x hx
    simp [deleteTaskList, hnone]
  · intro h
    have hnone : data.tasks.findIdx? (fun task => task.id == id) = none := by
      simp only [List.findIdx?_eq_none_iff]
      intro x hx
      simpa using h x hx
    simp [deleteTask, hnone]
  · intro h
    have hsome : ∃ i, data.taskLists.findIdx? (fun list => list.id == id) = some i := by
      obtain ⟨x, hx, hxid⟩ := h
      exact ⟨_, List.findIdx?_eq_some_of_exists ⟨x, hx, by simpa using hxid⟩⟩
    obtain ⟨i, hi⟩ := hsome
    have hlt : i < data.taskLists.length := (List.findIdx?_eq_some_iff_getElem.mp hi).1
    have hlen := List.length_eraseIdx_of_lt hlt
    simp [deleteTaskList, hi, hlen]
    omega
  · intro h
    have hsome : ∃ i, data.tasks.findIdx? (fun task => task.id == id) = some i := by
      obtain ⟨x, hx, hxid⟩ := h
      exact ⟨_, List.findIdx?_eq_some_of_exists ⟨x, hx, by simpa using hxid⟩⟩
    obtain ⟨i, hi⟩ := hsome
    have hlt : i < data.tasks.length := (List.findIdx?_eq_some_iff_getElem.mp hi).1
    have hlen := List.length_eraseIdx_of_lt hlt
    simp [deleteTask, hi, hlen]
    omega

/-- Closed instance of `c9_delete_unknown_silent`: deleting id "nope" from a
one-list document is a no-op returning `false`; deleting the present list
succeeds. -/
theorem c9_delete_unknown_silent_witness :
    deleteTaskList "nope"
        { taskLists := [sampleList "l1" "Work"], tasks := [], metadata := sampleMeta }
      = { result := false
          data := { taskLists := [sampleList "l1" "Work"], tasks := [], metadata := sampleMeta }
          saved := false }
    ∧ (deleteTaskList "l1"
        { taskLists := [sampleList "l1" "Work"], tasks := [], metadata := sampleMeta }).result
      = true :=
  ⟨(c9_delete_unknown_silent "nope"
      { taskLists := [sampleList "l1" "Work"], tasks := [], metadata := sampleMeta }).1
      (by decide),
   ((c9_delete_unknown_silent "l1"
      { taskLists := [sampleList "l1" "Work"], tasks := [], metadata := sampleMeta }).2.2.1
      ⟨sampleList "l1" "Work", by decide, by decide⟩).1⟩

/-- C10: list update with `name` present but equal to `""` succeeds: the
empty string is falsy, so the duplicate check and the name assignment are
both skipped, and only `updatedAt` changes on the found list. -/
theorem c10_update_list_empty_name (now : Int) (id : String) (data : StorageData)
    (i : Nat) (cur : TaskList)
    (hidx : data.taskLists.findIdx? (fun list => list.id == id) = some i)
    (hget : data.taskLists[i]? = some cur) :
    updateTaskList now id { name := some "" } data =
      .ok { result := some { cur with updatedAt := now }
            data := { data with
              taskLists := data.taskLists.set i { cur with updatedAt := now } }
            saved := true } := by
  simp [updateTaskList, hidx, hget, truthyString]

/-- Closed instance of `c10_update_list_empty_name` on a one-list document. -/
theorem c10_update_list_empty_name_witness :
    updateTaskList 7 "l1" { name := some "" }
        { taskLists := [sampleList "l1" "Work"], tasks := [], metadata := sampleMeta }
      = .ok { result := some { sampleList "l1" "Work" with updatedAt := 7 }
              data := { taskLists := [{ sampleList "l1" "Work" with updatedAt := 7 }]
                        tasks := [], metadata := sampleMeta }
              saved := true } :=
  c10_update_list_empty_name 7 "l1"
    { taskLists := [sampleList "l1" "Work"], tasks := [], metadata := sampleMeta }
    0 (sampleList "l1" "Work") (by decide) (by decide)

/-- C8: task update is a partial update with a frame guarantee: an unknown
id yields `null` with no save; otherwise exactly the present DTO fields are
applied (strings trimmed), `updatedAt` is bumped, `id`/`listId`/`createdAt`
survive, the lists are untouched and every other task is unchanged. -/
theorem c8_update_task_partial_frame (now : Int) (id : String)
    (upd : UpdateTaskDTO) (data : StorageData) :
    ((data.tasks.findIdx? (fun task => task.id == id) = none) →
       updateTask now id upd data = { result := none, data := data, saved := false })
    ∧ (∀ i cur, data.tasks.findIdx? (fun task => task.id == id) = some i →
        data.tasks[i]? = some cur →
        ∃ u, updateTask now id upd data =
            { result := some u
              data := { data with tasks := data.tasks.set i u }
              saved := true }
          ∧ u.id = cur.id ∧ u.listId = cur.listId ∧ u.createdAt = cur.createdAt
          ∧ u.updatedAt = now
          ∧ u.title = (match upd.title with | some s => jsTrim s | none => cur.title)
          ∧ u.time = (match upd.time with | some s => some (jsTrim s) | none => cur.time)
          ∧ u.completed = upd.completed.getD cur.completed
          ∧ (updateTask now id upd data).data.taskLists = data.taskLists
          ∧ (∀ j, j ≠ i → (updateTask now id upd data).data.tasks[j]? = data.tasks[j]?)) := by
  constructor
  · intro h
    simp [updateTask, h]
  · intro i cur hidx hget
    refine ⟨{ cur with
        title := match upd.title with | some s => jsTrim s | none => cur.title
        time := match upd.time with | some s => some (jsTrim s) | none => cur.time
        completed := upd.completed.getD cur.completed
        updatedAt := now }, ?_, rfl, rfl, rfl, rfl, rfl, rfl, rfl, ?_, ?_⟩
    · simp [updateTask, hidx, hget]
    · simp [updateTask, hidx, hget]
    · intro j hj
      simp [updateTask, hidx, hget, List.getElem?_set_ne (Ne.symm hj)]

/-- Closed instance of `c8_update_task_partial_frame`: updating only the
title of the first of two tasks trims it, keeps `time`/`completed`, and
leaves the second task alone. -/
theorem c8_update_task_partial_frame_witness :
    ∃ u, updateTask 9 "t1"
          { title := some " Buy milk ", time := none, completed := none }
          { taskLists := [sampleList "l1" "Work"]
            tasks := [sampleTask "t1" "Milk" "l1" false 1, sampleTask "t2" "Eggs" "l1" true 2]
            metadata := sampleMeta } =
        { result := some u
          data := { taskLists := [sampleList "l1" "Work"]
                    tasks := [sampleTask "t1" "Milk" "l1" false 1,
                              sampleTask "t2" "Eggs" "l1" true 2].set 0 u
                    metadata := sampleMeta }
          saved := true }
      ∧ u.id = "t1" ∧ u.listId = "l1" ∧ u.createdAt = 1 ∧ u.updatedAt = 9
      ∧ u.title = "Buy milk" ∧ u.time = none ∧ u.completed = false := by
  obtain ⟨u, h1, h2, h3, h4, h5, h6, h7, h8, _, _⟩ :=
    (c8_update_task_partial_frame 9 "t1"
      { title := some " Buy milk ", time := none, completed := none }
      { taskLists := [sampleList "l1" "Work"]
        tasks := [sampleTask "t1" "Milk" "l1" false 1, sampleTask "t2" "Eggs" "l1" true 2]
        metadata := sampleMeta }).2
      0 (sampleTask "t1" "Milk" "l1" false 1) (by decide) (by decide)
  exact ⟨u, h1, by simp [sampleTask] at h2 h3 h4 h5 h6 h7 h8 ⊢
                   exact ⟨h2, h3, h4, h5, by simpa [jsTrim] using h6, h7, h8⟩⟩

theorem jsRound_nonneg {x : ℚ} (hx : 0 ≤ x) : 0 ≤ jsRound x := by
  unfold jsRound
  have h : (0 : ℤ) ≤ ⌊x + 1 / 2⌋ := Int.floor_nonneg.mpr (by linarith)
  exact_mod_cast h

theorem jsRound_le_natCast {x : ℚ} {n : ℕ} (h : x ≤ n) : jsRound x ≤ n := by
  unfold jsRound
  have h1 : ⌊x + 1 / 2⌋ ≤ ⌊(n : ℚ) + 1 / 2⌋ := Int.floor_le_floor (by linarith)
  have h2 : ⌊(n : ℚ) + 1 / 2⌋ = n := by
    rw [Int.floor_eq_iff]
    constructor
    · push_cast; linarith
    · push_cast; linarith
  rw [h2] at h1
  exact_mod_cast h1

/-- The completion-rate expression both stats functions compute, given the
completed count `c` and total `t`: bounds and the zero cases. -/
theorem statsRate_spec (c t : Nat) (hct : c ≤ t) :
    0 ≤ jsRound ((if t > 0 then ((c : ℚ) / (t : ℚ)) * 100 else 0) * 100) / 100
    ∧ jsRound ((if t > 0 then ((c : ℚ) / (t : ℚ)) * 100 else 0) * 100) / 100 ≤ 100
    ∧ ((t = 0 ∨ c = 0) →
        jsRound ((if t > 0 then ((c : ℚ) / (t : ℚ)) * 100 else 0) * 100) / 100 = 0) := by
  by_cases ht : t > 0
  · have htQ : (0 : ℚ) < (t : ℚ) := by exact_mod_cast ht
    have hfrac : ((c : ℚ) / (t : ℚ)) ≤ 1 :=
      div_le_one_of_le₀ (by exact_mod_cast hct) (le_of_lt htQ)
    have hnn : (0 : ℚ) ≤ ((c : ℚ) / (t : ℚ)) * 100 * 100 := by positivity
    have hub : ((c : ℚ) / (t : ℚ)) * 100 * 100 ≤ ((10000 : ℕ) : ℚ) := by
      push_cast
      nlinarith
    refine ⟨?_, ?_, ?_⟩
    · simp only [if_pos ht]
      exact div_nonneg (jsRound_nonneg hnn) (by norm_num)
    · simp only [if_pos ht]
      have := jsRound_le_natCast hub
      rw [div_le_iff₀ (by norm_num : (0:ℚ) < 100)]
      calc jsRound (((c : ℚ) / (t : ℚ)) * 100 * 100) ≤ ((10000 : ℕ) : ℚ) := this
        _ = 100 * 100 := by norm_num
    · rintro (rfl | rfl)
      · omega
      · simp only [if_pos ht]
        norm_num [jsRound]
  · have ht0 : t = 0 := by omega
    subst ht0
    refine ⟨?_, ?_, fun _ => ?_⟩ <;> norm_num [jsRound]

/-- C3 (amended): for every stats result, `completionRate ∈ [0, 100]`, and
it is `0` whenever `totalTasks = 0` or `completedTasks = 0` (so not *only*
when `totalTasks = 0`). -/
theorem c3_completion_rate_bounds :
    (∀ id data s, getTaskListStats id data = some s →
       0 ≤ s.completionRate ∧ s.completionRate ≤ 100
       ∧ (s.totalTasks = 0 → s.completionRate = 0)
       ∧ (s.completedTasks = 0 → s.completionRate = 0))
    ∧ (∀ listId data s, getTaskStats listId data = .ok s →
       0 ≤ s.completionRate ∧ s.completionRate ≤ 100
       ∧ (s.totalTasks = 0 → s.completionRate = 0)
       ∧ (s.completedTasks = 0 → s.completionRate = 0)) := by
  constructor
  · intro id data s h
    rw [getTaskListStats] at h
    cases hfind : data.taskLists.find? (fun list => list.id == id) with
    | none => rw [hfind] at h; cases h
    | some l =>
      rw [hfind] at h
      simp only [Option.some.injEq] at h
      subst h
      obtain ⟨h0, h1, h2⟩ := statsRate_spec
        ((data.tasks.filter (fun task => task.listId == id)).filter
            (fun task => task.completed)).length
        (data.tasks.filter (fun task => task.listId == id)).length
        (List.length_filter_le _ _)
      exact ⟨h0, h1, fun ht => h2 (Or.inl ht), fun hc => h2 (Or.inr hc)⟩
  · intro listId data s h
    simp only [getTaskStats] at h
    by_cases htr : truthyString listId
    · rw [if_pos htr] at h
      by_cases hex : taskListExists (listId.getD "") data
      · rw [hex] at h
        simp only [Bool.not_true, Bool.false_eq_true, if_false, Except.ok.injEq] at h
        subst h
        obtain ⟨h0, h1, h2⟩ := statsRate_spec
          ((data.tasks.filter (fun task => task.listId == listId.getD "")).filter
              (fun task => task.completed)).length
          (data.tasks.filter (fun task => task.listId == listId.getD "")).length
          (List.length_filter_le _ _)
        exact ⟨h0, h1, fun ht => h2 (Or.inl ht), fun hc => h2 (Or.inr hc)⟩
      · rw [Bool.not_eq_true] at hex
        rw [hex] at h
        simp at h
    · rw [if_neg htr] at h
      simp only [Except.ok.injEq] at h
      subst h
      obtain ⟨h0, h1, h2⟩ := statsRate_spec
        (data.tasks.filter (fun task => task.completed)).length
        data.tasks.length
        (List.length_filter_le _ _)
      exact ⟨h0, h1, fun ht => h2 (Or.inl ht), fun hc => h2 (Or.inr hc)⟩

/-- Closed instance of `c3_completion_rate_bounds` at a concrete document. -/
theorem c3_completion_rate_bounds_witness :
    ∀ s, getTaskListStats "l1"
        { taskLists := [sampleList "l1" "Work"]
          tasks := [sampleTask "t1" "Read" "l1" false 0]
          metadata := sampleMeta } = some s →
      0 ≤ s.completionRate ∧ s.completionRate ≤ 100
      ∧ (s.totalTasks = 0 → s.completionRate = 0)
      ∧ (s.completedTasks = 0 → s.completionRate = 0) :=
  fun s h => c3_completion_rate_bounds.1 "l1" _ s h

/-- C3 counterexample: a list with one uncompleted task has
`completionRate = 0` while `totalTasks = 1 ≠ 0`, refuting "equals 0 exactly
when totalTasks = 0". -/
theorem c3_completion_rate_counterexample :
    (getTaskListStats "l1"
        { taskLists := [sampleList "l1" "Work"]
          tasks := [sampleTask "t1" "Read" "l1" false 0]
          metadata := sampleMeta }).map Stats.totalTasks = some 1
    ∧ (getTaskListStats "l1"
        { taskLists := [sampleList "l1" "Work"]
          tasks := [sampleTask "t1" "Read" "l1" false 0]
          metadata := sampleMeta }).map Stats.completionRate = some 0 := by
  constructor
  · rfl
  · have h : (getTaskListStats "l1"
        { taskLists := [sampleList "l1" "Work"]
          tasks := [sampleTask "t1" "Read" "l1" false 0]
          metadata := sampleMeta }).map Stats.completionRate
        = some (jsRound ((((0 : ℕ) : ℚ) / ((1 : ℕ) : ℚ) * 100) * 100) / 100) := rfl
    rw [h]
    norm_num [jsRound]

/-- C4: for an existing list, stats counts exactly the tasks of that list,
the completed ones among them, their difference, and the rounded rate; the
4-tasks/1-completed scenario yields `{4, 1, 3, 25.0}`. -/
theorem c4_stats_values :
    (∀ id data, taskListExists id data = true →
       ∃ s, getTaskListStats id data = some s
         ∧ s.totalTasks = (data.tasks.filter (fun task => task.listId == id)).length
         ∧ s.completedTasks
             = ((data.tasks.filter (fun task => task.listId == id)).filter
                 (fun task => task.completed)).length
         ∧ s.pendingTasks = s.totalTasks - s.completedTasks
         ∧ s.completedTasks + s.pendingTasks = s.totalTasks
         ∧ s.completionRate
             = jsRound ((if s.totalTasks > 0
                 then ((s.completedTasks : ℚ) / (s.totalTasks : ℚ)) * 100 else 0) * 100) / 100
         ∧ (s.totalTasks = 0 → s.completionRate = 0))
    ∧ getTaskListStats "l1"
        { taskLists := [sampleList "l1" "Work"]
          tasks := [sampleTask "t1" "A" "l1" true 0, sampleTask "t2" "B" "l1" false 0,
                    sampleTask "t3" "C" "l1" false 0, sampleTask "t4" "D" "l1" false 0]
          metadata := sampleMeta }
      = some { totalTasks := 4, completedTasks := 1, pendingTasks := 3, completionRate := 25 } := by
  constructor
  · intro id data hex
    have hfind : ∃ l, data.taskLists.find? (fun list => list.id == id) = some l := by
      rw [taskListExists, List.any_eq_true] at hex
      obtain ⟨l, hl, hlid⟩ := hex
      have := List.find?_eq_none (p := fun list => list.id == id) (l := data.taskLists)
      cases hf : data.taskLists.find? (fun list => list.id == id) with
      | none => exact absurd hlid (by simpa using (this.mp hf) l hl)
      | some l' => exact ⟨l', rfl⟩
    obtain ⟨l, hl⟩ := hfind
    rw [getTaskListStats, hl]
    refine ⟨_, rfl, rfl, rfl, rfl, ?_, rfl, ?_⟩
    · have hle := List.length_filter_le (fun task => task.completed)
        (data.tasks.filter (fun task => task.listId == id))
      dsimp only
      omega
    · intro ht
      obtain ⟨_, _, h0⟩ := statsRate_spec
        ((data.tasks.filter (fun task => task.listId == id)).filter
            (fun task => task.completed)).length
        (data.tasks.filter (fun task => task.listId == id)).length
        (List.length_filter_le _ _)
      exact h0 (Or.inl ht)
  · have h : getTaskListStats "l1"
        { taskLists := [sampleList "l1" "Work"]
          tasks := [sampleTask "t1" "A" "l1" true 0, sampleTask "t2" "B" "l1" false 0,
                    sampleTask "t3" "C" "l1" false 0, sampleTask "t4" "D" "l1" false 0]
          metadata := sampleMeta }
        = some { totalTasks := 4, completedTasks := 1, pendingTasks := 3
                 completionRate := jsRound ((((1 : ℕ) : ℚ) / ((4 : ℕ) : ℚ) * 100) * 100) / 100 } :=
      rfl
    rw [h]
    norm_num [jsRound]

/-- Closed instance of `c4_stats_values` on the 4-tasks/1-completed list. -/
theorem c4_stats_values_witness :
    ∃ s, getTaskListStats "l1"
        { taskLists := [sampleList "l1" "Work"]
          tasks := [sampleTask "t1" "A" "l1" true 0, sampleTask "t2" "B" "l1" false 0,
                    sampleTask "t3" "C" "l1" false 0, sampleTask "t4" "D" "l1" false 0]
          metadata := sampleMeta } = some s
      ∧ s.totalTasks = 4 ∧ s.completedTasks = 1 ∧ s.pendingTasks = 3
      ∧ s.completedTasks + s.pendingTasks = s.totalTasks := by
  obtain ⟨s, hs, h1, h2, _, h4, _, _⟩ := c4_stats_values.1 "l1"
    { taskLists := [sampleList "l1" "Work"]
      tasks := [sampleTask "t1" "A" "l1" true 0, sampleTask "t2" "B" "l1" false 0,
                sampleTask "t3" "C" "l1" false 0, sampleTask "t4" "D" "l1" false 0]
      metadata := sampleMeta } (by decide)
  have e1 : s.totalTasks = 4 := by rw [h1]; decide
  have e2 : s.completedTasks = 1 := by rw [h2]; decide
  exact ⟨s, hs, e1, e2, by omega, h4⟩

/-- C5 (amended): search returns exactly the in-scope tasks whose title
contains the *trimmed* query as a case-insensitive substring, ordered so
that any task placed before another compares `≤ 0` under the source's
comparator (exact case-insensitive title matches first, then newer
`createdAt` first); and the "Milk"/"Buy milk" scenario sorts the exact
match first even though "Buy milk" is newer. -/
theorem c5_search_results :
    (∀ query data result, searchTasks query none data = .ok result →
       result.Perm (data.tasks.filter
         (fun task => jsIncludes (jsToLower task.title) (jsTrim (jsToLower query))))
       ∧ (∀ t, t ∈ result ↔ t ∈ data.tasks
            ∧ jsIncludes (jsToLower t.title) (jsTrim (jsToLower query)) = true)
       ∧ result.Pairwise (taskSearchLe (jsTrim (jsToLower query))))
    ∧ (∀ query lid data result, truthyString (some lid) = true →
       searchTasks query (some lid) data = .ok result →
       result.Perm ((data.tasks.filter (fun task => task.listId == lid)).filter
         (fun task => jsIncludes (jsToLower task.title) (jsTrim (jsToLower query))))
       ∧ (∀ t, t ∈ result ↔ t ∈ data.tasks ∧ t.listId = lid
            ∧ jsIncludes (jsToLower t.title) (jsTrim (jsToLower query)) = true)
       ∧ result.Pairwise (taskSearchLe (jsTrim (jsToLower query))))
    ∧ searchTasks "milk" none
        { taskLists := [sampleList "l1" "Work"]
          tasks := [sampleTask "tm" "Milk" "l1" false 1,
                    sampleTask "tb" "Buy milk" "l1" false 2]
          metadata := sampleMeta }
      = .ok [sampleTask "tm" "Milk" "l1" false 1,
             sampleTask "tb" "Buy milk" "l1" false 2] := by
  refine ⟨?_, ?_, ?_⟩
  · intro query data result h
    simp only [searchTasks, truthyString, Bool.false_eq_true, if_false, Except.ok.injEq] at h
    subst h
    refine ⟨List.perm_insertionSort _ _, ?_, List.sorted_insertionSort _ _⟩
    intro t
    rw [List.mem_insertionSort, List.mem_filter]
  · intro query lid data result htr h
    simp only [searchTasks, htr, if_true] at h
    by_cases hex : taskListExists ((some lid).getD "") data
    · rw [hex] at h
      simp only [Bool.not_true, Bool.false_eq_true, if_false, Except.ok.injEq] at h
      subst h
      refine ⟨List.perm_insertionSort _ _, ?_, List.sorted_insertionSort _ _⟩
      intro t
      rw [List.mem_insertionSort, List.mem_filter, List.mem_filter]
      simp [and_assoc]
    · rw [Bool.not_eq_true] at hex
      rw [hex] at h
      simp at h
  · rfl

/-- Closed instance of `c5_search_results`: the two-task search's output is
sorted under the comparator relation. -/
theorem c5_search_results_witness :
    List.Pairwise (taskSearchLe (jsTrim (jsToLower "milk")))
      [sampleTask "tm" "Milk" "l1" false 1, sampleTask "tb" "Buy milk" "l1" false 2] :=
  (c5_search_results.1 "milk"
    { taskLists := [sampleList "l1" "Work"]
      tasks := [sampleTask "tm" "Milk" "l1" false 1,
                sampleTask "tb" "Buy milk" "l1" false 2]
      metadata := sampleMeta }
    [sampleTask "tm" "Milk" "l1" false 1, sampleTask "tb" "Buy milk" "l1" false 2]
    rfl).2.2

/-- C5 counterexample: with the query `"milk "` (trailing blank) the code
still returns the task titled "Milk", although that title does *not*
contain the query as a case-insensitive substring — the code matches
against the trimmed query. -/
theorem c5_search_results_counterexample :
    searchTasks "milk " none
        { taskLists := [sampleList "l1" "Work"]
          tasks := [sampleTask "tm" "Milk" "l1" false 1]
          metadata := sampleMeta }
      = .ok [sampleTask "tm" "Milk" "l1" false 1]
    ∧ jsIncludes (jsToLower "Milk") (jsToLower "milk ") = false := by
  exact ⟨rfl, by decide⟩

theorem pairwise_ne_set {α : Type} {l : List α} {i : Nat} {x : α}
    (h : l.Pairwise (· ≠ ·))
    (hx : ∀ j, (hj : j < l.length) → j ≠ i → l[j] ≠ x) :
    (l.set i x).Pairwise (· ≠ ·) := by
  rw [List.pairwise_iff_getElem] at h ⊢
  intro a b ha hb hab
  rw [List.length_set] at ha hb
  simp only [List.getElem_set]
  split_ifs with h1 h2 h2
  · omega
  · exact fun he => hx b hb (by omega) he.symm
  · exact hx a ha (by omega)
  · exact h a b ha hb hab

theorem set_getElem_eq_self {α : Type} {l : List α} {i : Nat} (hi : i < l.length) :
    l.set i (l[i]) = l := by
  apply List.ext_getElem?
  intro n
  by_cases hn : i = n
  · subst hn
    rw [List.getElem?_set_self hi, List.getElem?_eq_getElem hi]
  · rw [List.getElem?_set_ne hn]

theorem map_set_eq_of_getElem {α β : Type} {l : List α} {i : Nat} {x : α} {f : α → β}
    (hi : i < l.length) (hf : f x = f (l[i])) :
    (l.set i x).map f = l.map f := by
  rw [List.map_set, hf]
  have hi2 : i < (l.map f).length := by simpa using hi
  have hmap : f (l[i]) = (l.map f)[i] := by simp
  rw [hmap, set_getElem_eq_self hi2]

/-- One operation preserves case-insensitive name uniqueness and id
uniqueness, provided the list names it supplies are already trimmed and a
generated list id is fresh. -/
theorem applyOp_preserves_unique (data : StorageData) (op : Op)
    (hn : uniqueNamesCI data) (hid : uniqueListIds data)
    (ht : opNamesTrimmed op = true) (hf : opFreshFor op data = true) :
    uniqueNamesCI (applyOp data op) ∧ uniqueListIds (applyOp data op) := by
  cases op with
  | createListOp newId now c =>
    cases hfind : data.taskLists.find?
        (fun list => jsToLower list.name == jsToLower c.name) with
    | some l =>
      have heq : applyOp data (.createListOp newId now c) = data := by
        simp [applyOp, createTaskList, hfind]
      rw [heq]
      exact ⟨hn, hid⟩
    | none =>
      have heq : applyOp data (.createListOp newId now c) =
          { data with taskLists := data.taskLists ++
              [{ id := newId, name := jsTrim c.name, createdAt := now, updatedAt := now }] } := by
        simp [applyOp, createTaskList, hfind]
      rw [heq]
      have htrim : jsTrim c.name = c.name := by
        simpa [opNamesTrimmed] using ht
      have hfresh : newId ∉ data.taskLists.map TaskList.id := by
        simpa [opFreshFor] using hf
      constructor
      · simp only [uniqueNamesCI] at hn ⊢
        simp only [List.map_append, List.map_cons, List.map_nil]
        rw [List.pairwise_append]
        refine ⟨hn, List.pairwise_singleton _ _, ?_⟩
        intro x hx y hy
        simp only [List.mem_singleton] at hy
        subst hy
        rw [List.mem_map] at hx
        obtain ⟨lst, hmem, rfl⟩ := hx
        have hne := List.find?_eq_none.mp hfind lst hmem
        simp only [beq_iff_eq] at hne
        simpa [htrim] using hne
      · simp only [uniqueListIds] at hid ⊢
        simp only [List.map_append, List.map_cons, List.map_nil]
        rw [List.pairwise_append]
        refine ⟨hid, List.pairwise_singleton _ _, ?_⟩
        intro x hx y hy
        simp only [List.mem_singleton] at hy
        subst hy
        exact fun he => hfresh (he ▸ hx)
  | updateListOp now id u =>
    cases hidx : data.taskLists.findIdx? (fun list => list.id == id) with
    | none =>
      have heq : applyOp data (.updateListOp now id u) = data := by
        simp [applyOp, updateTaskList, hidx]
      rw [heq]
      exact ⟨hn, hid⟩
    | some i =>
      obtain ⟨hlt, hpi, -⟩ := List.findIdx?_eq_some_iff_getElem.mp hidx
      have hget : data.taskLists[i]? = some (data.taskLists[i]) :=
        List.getElem?_eq_getElem hlt
      have hcurid : (data.taskLists[i]).id = id := by simpa using hpi
      by_cases htr : truthyString u.name
      · obtain ⟨s, hs⟩ : ∃ s, u.name = some s := by
          cases hu : u.name with
          | none => rw [hu] at htr; simp [truthyString] at htr
          | some s => exact ⟨s, rfl⟩
        have hstrim : jsTrim s = s := by
          rw [opNamesTrimmed, hs] at ht
          simpa using ht
        cases hany : data.taskLists.any (fun list =>
            !(list.id == id) && jsToLower list.name == jsToLower (u.name.getD "")) with
        | true =>
          have heq : applyOp data (.updateListOp now id u) = data := by
            simp [applyOp, updateTaskList, hidx, hget, htr, hany]
          rw [heq]
          exact ⟨hn, hid⟩
        | false =>
          have heq : applyOp data (.updateListOp now id u) =
              { data with
                taskLists := data.taskLists.set i ({ data.taskLists[i] with name := jsTrim (u.name.getD ""), updatedAt := now }) } := by
            simp [applyOp, updateTaskList, hidx, hget, htr, hany]
          rw [heq]
          have hothers : ∀ j, (hj : j < data.taskLists.length) → j ≠ i →
              jsToLower ((data.taskLists[j]).name) ≠ jsToLower (u.name.getD "") := by
            intro j hj hji he
            have hjid : (data.taskLists[j]).id ≠ id := by
              simp only [uniqueListIds, List.pairwise_iff_getElem] at hid
              intro he2
              rcases Nat.lt_or_ge j i with hlt2 | hge
              · have := hid j i (by simpa using hj) (by simpa using hlt) hlt2
                simp only [List.getElem_map] at this
                exact this (he2.trans hcurid.symm)
              · have := hid i j (by simpa using hlt) (by simpa using hj) (by omega)
                simp only [List.getElem_map] at this
                exact this (hcurid.trans he2.symm)
            apply List.any_eq_false.mp hany (data.taskLists[j]) (List.getElem_mem hj)
            simp [beq_iff_eq, hjid, he]
          constructor
          · simp only [uniqueNamesCI] at hn ⊢
            rw [List.map_set]
            apply pairwise_ne_set hn
            intro j hj hji
            have hj2 : j < data.taskLists.length := by simpa using hj
            have := hothers j hj2 hji
            simpa [hs, hstrim] using this
          · simp only [uniqueListIds] at hid ⊢
            rw [map_set_eq_of_getElem hlt (by simp)]
            exact hid
      · have heq : applyOp data (.updateListOp now id u) =
            { data with
              taskLists := data.taskLists.set i ({ data.taskLists[i] with updatedAt := now }) } := by
          simp [applyOp, updateTaskList, hidx, hget, htr]
        rw [heq]
        constructor
        · simp only [uniqueNamesCI] at hn ⊢
          rw [map_set_eq_of_getElem hlt (by simp)]
          exact hn
        · simp only [uniqueListIds] at hid ⊢
          rw [map_set_eq_of_getElem hlt (by simp)]
          exact hid
  | deleteListOp id =>
    cases hidx : data.taskLists.findIdx? (fun list => list.id == id) with
    | none =>
      have heq : applyOp data (.deleteListOp id) = data := by
        simp [applyOp, deleteTaskList, hidx]
      rw [heq]
      exact ⟨hn, hid⟩
    | some i =>
      have heq : applyOp data (.deleteListOp id) =
          { data with
            taskLists := data.taskLists.eraseIdx i
            tasks := data.tasks.filter (fun task => !(task.listId == id)) } := by
        simp [applyOp, deleteTaskList, hidx]
      rw [heq]
      have hsub : List.Sublist ((data.taskLists.eraseIdx i).map TaskList.id)
          (data.taskLists.map TaskList.id) :=
        (List.eraseIdx_sublist data.taskLists i).map TaskList.id
      have hsub2 : List.Sublist
          ((data.taskLists.eraseIdx i).map (fun list => jsToLower list.name))
          (data.taskLists.map (fun list => jsToLower list.name)) :=
        (List.eraseIdx_sublist data.taskLists i).map _
      exact ⟨List.Pairwise.sublist hsub2 hn, List.Pairwise.sublist hsub hid⟩
  | createTaskOp newId now c =>
    have heq : (applyOp data (.createTaskOp newId now c)).taskLists = data.taskLists := by
      cases hex : taskListExists c.listId data <;> simp [applyOp, createTask, hex]
    constructor
    · simpa only [uniqueNamesCI, heq] using hn
    · simpa only [uniqueListIds, heq] using hid
  | updateTaskOp now id u =>
    have heq : (applyOp data (.updateTaskOp now id u)).taskLists = data.taskLists := by
      cases hidx : data.tasks.findIdx? (fun task => task.id == id) with
      | none => simp [applyOp, updateTask, hidx]
      | some i => cases hget : data.tasks[i]? <;> simp [applyOp, updateTask, hidx, hget]
    constructor
    · simpa only [uniqueNamesCI, heq] using hn
    · simpa only [uniqueListIds, heq] using hid
  | toggleTaskOp now id =>
    have heq : (applyOp data (.toggleTaskOp now id)).taskLists = data.taskLists := by
      cases hidx : data.tasks.findIdx? (fun task => task.id == id) with
      | none => simp [applyOp, toggleTaskCompletion, hidx]
      | some i => cases hget : data.tasks[i]? <;> simp [applyOp, toggleTaskCompletion, hidx, hget]
    constructor
    · simpa only [uniqueNamesCI, heq] using hn
    · simpa only [uniqueListIds, heq] using hid
  | deleteTaskOp id =>
    have heq : (applyOp data (.deleteTaskOp id)).taskLists = data.taskLists := by
      cases hidx : data.tasks.findIdx? (fun task => task.id == id) <;>
        simp [applyOp, deleteTask, hidx]
    constructor
    · simpa only [uniqueNamesCI, heq] using hn
    · simpa only [uniqueListIds, heq] using hid

/-- Running a whole sequence of well-formed operations preserves both
uniqueness invariants. -/
theorem foldl_preserves_unique :
    ∀ (ops : List Op) (data : StorageData),
      uniqueNamesCI data → uniqueListIds data →
      (∀ op ∈ ops, opNamesTrimmed op = true) →
      goodSeq ops data = true →
      uniqueNamesCI (List.foldl applyOp data ops)
        ∧ uniqueListIds (List.foldl applyOp data ops)
  | [], _, hn, hid, _, _ => ⟨hn, hid⟩
  | op :: ops, data, hn, hid, ht, hg => by
    rw [goodSeq, Bool.and_eq_true] at hg
    have step := applyOp_preserves_unique data op hn hid
      (ht op (List.mem_cons_self op ops)) hg.1
    rw [List.foldl_cons]
    exact foldl_preserves_unique ops (applyOp data op) step.1 step.2
      (fun o ho => ht o (List.mem_cons_of_mem op ho)) hg.2

/-- C1 (amended): the duplicate check compares the *untrimmed* given name
case-insensitively — create fails with DuplicateNameError when an existing
list's name matches the given name, update likewise against every other
list — and therefore after every sequence of operations in which each
supplied list name equals its own trim (and generated list ids are fresh,
as `uuidv4` provides), no two stored lists have names equal up to case. -/
theorem c1_unique_names_invariant :
    (∀ newId now c data,
       (∃ l ∈ data.taskLists, jsToLower l.name = jsToLower c.name) →
       createTaskList newId now c data = .error .duplicateName)
    ∧ (∀ now id u data s, u.name = some s → s ≠ "" →
       (∃ i, data.taskLists.findIdx? (fun list => list.id == id) = some i) →
       (∃ l ∈ data.taskLists, l.id ≠ id ∧ jsToLower l.name = jsToLower s) →
       updateTaskList now id u data = .error .duplicateName)
    ∧ (∀ now ops, (∀ op ∈ ops, opNamesTrimmed op = true) →
       goodSeq ops (createInitialData now) = true →
       uniqueNamesCI (List.foldl applyOp (createInitialData now) ops)) := by
  refine ⟨?_, ?_, ?_⟩
  · intro newId now c data hex
    rw [createTaskList]
    cases hfind : data.taskLists.find?
        (fun list => jsToLower list.name == jsToLower c.name) with
    | some l => rfl
    | none =>
      obtain ⟨l, hl, hname⟩ := hex
      have := List.find?_eq_none.mp hfind l hl
      simp only [beq_iff_eq] at this
      exact absurd hname this
  · intro now id u data s hs hne hidx hex
    obtain ⟨i, hi⟩ := hidx
    obtain ⟨hlt, -, -⟩ := List.findIdx?_eq_some_iff_getElem.mp hi
    have htr : truthyString u.name = true := by
      rw [hs]
      simpa [truthyString] using hne
    have hany : data.taskLists.any (fun list =>
        !(list.id == id) && jsToLower list.name == jsToLower (u.name.getD "")) = true := by
      rw [List.any_eq_true]
      obtain ⟨l, hl, hlid, hlname⟩ := hex
      refine ⟨l, hl, ?_⟩
      simp [hs, beq_iff_eq, hlid, hlname]
    simp [updateTaskList, hi, List.getElem?_eq_getElem hlt, htr, hany]
  · intro now ops ht hg
    exact (foldl_preserves_unique ops (createInitialData now)
      (List.Pairwise.nil) (List.Pairwise.nil) ht hg).1

/-- Closed instance of `c1_unique_names_invariant`: creating "Work" then
renaming it keeps names unique. -/
theorem c1_unique_names_invariant_witness :
    uniqueNamesCI (List.foldl applyOp (createInitialData 0)
      [Op.createListOp "id1" 0 { name := "Work" },
       Op.updateListOp 1 "id1" { name := some "Personal" }]) :=
  c1_unique_names_invariant.2.2 0
    [Op.createListOp "id1" 0 { name := "Work" },
     Op.updateListOp 1 "id1" { name := some "Personal" }]
    (by decide) (by decide)

/-- C1 counterexample: the claim as stated fails on the code: starting from
the empty document, `create "A"` then `create " A"` both succeed (the
duplicate check compares the *untrimmed* `" A"`), leaving two stored lists
both named "A" — names equal up to case. -/
theorem c1_unique_names_invariant_counterexample :
    ((List.foldl applyOp (createInitialData 0)
        [Op.createListOp "id1" 0 { name := "A" },
         Op.createListOp "id2" 0 { name := " A" }]).taskLists.map
          (fun list => list.name)) = ["A", "A"]
    ∧ ¬ uniqueNamesCI (List.foldl applyOp (createInitialData 0)
        [Op.createListOp "id1" 0 { name := "A" },
         Op.createListOp "id2" 0 { name := " A" }]) := by
  constructor
  · decide
  · intro h
    rw [uniqueNamesCI] at h
    revert h
    decide

/-- Every single operation preserves referential integrity, with no side
conditions: task creation checks its list, list deletion cascades in the
same document update, and no other operation changes a `listId` or a list
id. -/
theorem applyOp_preserves_refIntegrity (data : StorageData) (op : Op)
    (h : refIntegrity data) : refIntegrity (applyOp data op) := by
  cases op with
  | createListOp newId now c =>
    cases hfind : data.taskLists.find?
        (fun list => jsToLower list.name == jsToLower c.name) with
    | some l =>
      have heq : applyOp data (.createListOp newId now c) = data := by
        simp [applyOp, createTaskList, hfind]
      rw [heq]; exact h
    | none =>
      have heq : applyOp data (.createListOp newId now c) =
          { data with taskLists := data.taskLists ++
              [{ id := newId, name := jsTrim c.name, createdAt := now, updatedAt := now }] } := by
        simp [applyOp, createTaskList, hfind]
      rw [heq]
      intro t htk
      have := h t htk
      simp only [List.map_append]
      exact List.mem_append_left _ this
  | updateListOp now id u =>
    cases hidx : data.taskLists.findIdx? (fun list => list.id == id) with
    | none =>
      have heq : applyOp data (.updateListOp now id u) = data := by
        simp [applyOp, updateTaskList, hidx]
      rw [heq]; exact h
    | some i =>
      obtain ⟨hlt, -, -⟩ := List.findIdx?_eq_some_iff_getElem.mp hidx
      have hget : data.taskLists[i]? = some (data.taskLists[i]) :=
        List.getElem?_eq_getElem hlt
      by_cases htr : truthyString u.name
      · cases hany : data.taskLists.any (fun list =>
            !(list.id == id) && jsToLower list.name == jsToLower (u.name.getD "")) with
        | true =>
          have heq : applyOp data (.updateListOp now id u) = data := by
            simp [applyOp, updateTaskList, hidx, hget, htr, hany]
          rw [heq]; exact h
        | false =>
          have heq : applyOp data (.updateListOp now id u) =
              { data with
                taskLists := data.taskLists.set i ({ data.taskLists[i] with name := jsTrim (u.name.getD ""), updatedAt := now }) } := by
            simp [applyOp, updateTaskList, hidx, hget, htr, hany]
          rw [heq]
          intro t htk
          have := h t htk
          rwa [map_set_eq_of_getElem hlt (by simp)]
      · have heq : applyOp data (.updateListOp now id u) =
            { data with
              taskLists := data.taskLists.set i ({ data.taskLists[i] with updatedAt := now }) } := by
          simp [applyOp, updateTaskList, hidx, hget, htr]
        rw [heq]
        intro t htk
        have := h t htk
        rwa [map_set_eq_of_getElem hlt (by simp)]
  | deleteListOp id =>
    cases hidx : data.taskLists.findIdx? (fun list => list.id == id) with
    | none =>
      have heq : applyOp data (.deleteListOp id) = data := by
        simp [applyOp, deleteTaskList, hidx]
      rw [heq]; exact h
    | some i =>
      obtain ⟨hlt, hpi, -⟩ := List.findIdx?_eq_some_iff_getElem.mp hidx
      have hiid : (data.taskLists[i]).id = id := by simpa using hpi
      have heq : applyOp data (.deleteListOp id) =
          { data with
            taskLists := data.taskLists.eraseIdx i
            tasks := data.tasks.filter (fun task => !(task.listId == id)) } := by
        simp [applyOp, deleteTaskList, hidx]
      rw [heq]
      intro t htk
      rw [List.mem_filter] at htk
      obtain ⟨htmem, htid⟩ := htk
      have htne : t.listId ≠ id := by simpa using htid
      have hmem := h t htmem
      rw [List.mem_map] at hmem
      obtain ⟨l, hl, hlid⟩ := hmem
      obtain ⟨j, hj⟩ := List.mem_iff_getElem?.mp hl
      have hjlt : j < data.taskLists.length := by
        by_contra hge
        rw [List.getElem?_eq_none (by omega)] at hj
        cases hj
      have hjget : data.taskLists[j] = l := by
        rw [List.getElem?_eq_getElem hjlt] at hj
        exact Option.some.inj hj
      have hji : j ≠ i := by
        intro he
        subst he
        exact htne ((hlid.symm.trans (hjget ▸ hiid)).symm ▸ rfl)
      rw [List.mem_map]
      refine ⟨l, ?_, hlid⟩
      rw [List.mem_eraseIdx_iff_getElem?]
      exact ⟨j, hji, hjget ▸ List.getElem?_eq_getElem hjlt⟩
  | createTaskOp newId now c =>
    cases hex : taskListExists c.listId data with
    | false =>
      have heq : applyOp data (.createTaskOp newId now c) = data := by
        simp [applyOp, createTask, hex]
      rw [heq]; exact h
    | true =>
      have heq : applyOp data (.createTaskOp newId now c) =
          { data with tasks := data.tasks ++
              [{ id := newId, title := jsTrim c.title, time := c.time.map jsTrim
                 completed := false, listId := c.listId, createdAt := now, updatedAt := now }] } := by
        simp [applyOp, createTask, hex]
      rw [heq]
      intro t htk
      rcases List.mem_append.mp htk with hold | hnew
      · exact h t hold
      · rw [List.mem_singleton] at hnew
        subst hnew
        rw [taskListExists, List.any_eq_true] at hex
        obtain ⟨l, hl, hlid⟩ := hex
        rw [List.mem_map]
        exact ⟨l, hl, by simpa using hlid⟩
  | updateTaskOp now id u =>
    cases hidx : data.tasks.findIdx? (fun task => task.id == id) with
    | none =>
      have heq : applyOp data (.updateTaskOp now id u) = data := by
        simp [applyOp, updateTask, hidx]
      rw [heq]; exact h
    | some i =>
      obtain ⟨hlt, -, -⟩ := List.findIdx?_eq_some_iff_getElem.mp hidx
      have hget : data.tasks[i]? = some (data.tasks[i]) := List.getElem?_eq_getElem hlt
      have heq : applyOp data (.updateTaskOp now id u) =
          { data with
            tasks := data.tasks.set i
              ({ data.tasks[i] with
                 title := match u.title with | some s => jsTrim s | none => (data.tasks[i]).title
                 time := match u.time with | some s => some (jsTrim s) | none => (data.tasks[i]).time
                 completed := u.completed.getD (data.tasks[i]).completed
                 updatedAt := now }) } := by
        simp [applyOp, updateTask, hidx, hget]
      rw [heq]
      intro t htk
      rcases List.mem_or_eq_of_mem_set htk with hold | hnew
      · exact h t hold
      · subst hnew
        exact h (data.tasks[i]) (List.getElem_mem hlt)
  | toggleTaskOp now id =>
    cases hidx : data.tasks.findIdx? (fun task => task.id == id) with
    | none =>
      have heq : applyOp data (.toggleTaskOp now id) = data := by
        simp [applyOp, toggleTaskCompletion, hidx]
      rw [heq]; exact h
    | some i =>
      obtain ⟨hlt, -, -⟩ := List.findIdx?_eq_some_iff_getElem.mp hidx
      have hget : data.tasks[i]? = some (data.tasks[i]) := List.getElem?_eq_getElem hlt
      have heq : applyOp data (.toggleTaskOp now id) =
          { data with
            tasks := data.tasks.set i
              ({ data.tasks[i] with
                 completed := !(data.tasks[i]).completed, updatedAt := now }) } := by
        simp [applyOp, toggleTaskCompletion, hidx, hget]
      rw [heq]
      intro t htk
      rcases List.mem_or_eq_of_mem_set htk with hold | hnew
      · exact h t hold
      · subst hnew
        exact h (data.tasks[i]) (List.getElem_mem hlt)
  | deleteTaskOp id =>
    cases hidx : data.tasks.findIdx? (fun task => task.id == id) with
    | none =>
      have heq : applyOp data (.deleteTaskOp id) = data := by
        simp [applyOp, deleteTask, hidx]
      rw [heq]; exact h
    | some i =>
      have heq : applyOp data (.deleteTaskOp id) =
          { data with tasks := data.tasks.eraseIdx i } := by
        simp [applyOp, deleteTask, hidx]
      rw [heq]
      intro t htk
      exact h t ((List.eraseIdx_sublist data.tasks i).mem htk)

/-- C2: referential integrity is preserved by every operation: creating a
task with an unknown `listId` fails with NotFoundError, deleting a list
removes the list and all its tasks in the same single save, and every state
reachable by any operation sequence from a state with integrity (in
particular every document handed to `writeData`) keeps every `task.listId`
equal to some stored list's id. -/
theorem c2_referential_integrity :
    (∀ newId now c data, taskListExists c.listId data = false →
       createTask newId now c data = .error .notFound)
    ∧ (∀ id data i, data.taskLists.findIdx? (fun list => list.id == id) = some i →
       deleteTaskList id data =
         { result := true
           data := { data with
             taskLists := data.taskLists.eraseIdx i
             tasks := data.tasks.filter (fun task => !(task.listId == id)) }
           saved := true })
    ∧ (∀ data ops, refIntegrity data →
       refIntegrity (List.foldl applyOp data ops)) := by
  refine ⟨?_, ?_, ?_⟩
  · intro newId now c data hex
    simp [createTask, hex]
  · intro id data i hidx
    simp [deleteTaskList, hidx]
  · intro data ops
    induction ops generalizing data with
    | nil => exact fun h => h
    | cons op ops ih =>
      intro h
      rw [List.foldl_cons]
      exact ih (applyOp data op) (applyOp_preserves_refIntegrity data op h)

/-- Closed instance of `c2_referential_integrity`: creating a task on a
missing list fails, and a create-list / create-task / delete-list run keeps
integrity (ending with no tasks at all). -/
theorem c2_referential_integrity_witness :
    createTask "t9" 0 { title := "X", time := none, listId := "ghost" }
        { taskLists := [], tasks := [], metadata := sampleMeta }
      = .error .notFound
    ∧ refIntegrity (List.foldl applyOp
        { taskLists := [], tasks := [], metadata := sampleMeta }
        [Op.createListOp "l1" 0 { name := "Work" },
         Op.createTaskOp "t1" 1 { title := "Read", time := none, listId := "l1" },
         Op.deleteListOp "l1"]) :=
  ⟨c2_referential_integrity.1 "t9" 0 { title := "X", time := none, listId := "ghost" }
      { taskLists := [], tasks := [], metadata := sampleMeta } (by decide),
   c2_referential_integrity.2.2
      { taskLists := [], tasks := [], metadata := sampleMeta }
      [Op.createListOp "l1" 0 { name := "Work" },
       Op.createTaskOp "t1" 1 { title := "Read", time := none, listId := "l1" },
       Op.deleteListOp "l1"]
      (by intro t ht; cases ht)⟩

end Todo











